import Mathlib

/-!
Shallow embedding of the connection import preprocessing service
(`connectionParseService.js`): group-path lookup construction
(`saveLookups`), the group-field transformer (`getGroupTransformer`),
basic batch checks (`performBasicChecks`) and the per-record fold
(`parseConnectionData`).

JavaScript values of interest are modelled explicitly:
  - an optional string field is `Option String`; JS truthiness of such a
    field (`undefined` and `""` are falsy) is `truthyO`;
  - a JS object used as a string-keyed map is an association list in
    assignment order, with later assignments winning (`jsGet`);
  - a thrown `ParseError` is the `Except.error` case.
-/

/-- One parse failure, as constructed by `new ParseError({...})` in the
source: a message, an optional stable translation key, and optional
substitution variables (the source's `variables` member — that word is a
Lean keyword, so the field is called `vars` here). -/
structure ParseError where
  message : String
  key : Option String := none
  vars : Option (List (String × String)) := none
deriving Repr, DecidableEq

-- Equality of thrown errors and of parse outcomes is decidable, so
-- concrete runs can be checked by evaluation.
deriving instance DecidableEq for Except

/-- An import record (the source's dynamic connection object), restricted to
the fields the service reads — `group`, `parentIdentifier`, `users`,
`groups` — plus an opaque pass-through payload `attrs` standing for all other
connection attributes, which the service never inspects. `none` models an
absent field. -/
structure ImportRecord where
  group : Option String := none
  parentIdentifier : Option String := none
  users : Option (List String) := none
  groups : Option (List String) := none
  attrs : List (String × String) := []
deriving Repr, DecidableEq

/-- Modelled from the spec: the `Connection` class is outside the provided
source; per the spec it carries the record's resolved attributes verbatim
into the creation op, so it is modelled as an opaque wrapper of the
transformed record. -/
structure Connection where
  data : ImportRecord
deriving Repr, DecidableEq

/-- One creation operation, as constructed by
`new DirectoryPatch({ op: 'add', path: '/', value: connection })`. -/
structure DirectoryPatch where
  op : String
  path : String
  value : Connection
deriving Repr, DecidableEq

/-- Modelled from the spec: the `ParseResult` class is outside the provided
source; per the spec it is created empty at batch start and holds the
creation ops (`patches`), the grantee index maps (`users`, `groups`), the
per-record issue lists (`errors`) and the `hasErrors` flag. The two index
maps are JS objects keyed by identifier; they are modelled as association
lists in insertion order. -/
structure ParseResult where
  patches : List DirectoryPatch := []
  users : List (String × List Nat) := []
  groups : List (String × List Nat) := []
  errors : List (List ParseError) := []
  hasErrors : Bool := false
deriving Repr, DecidableEq

/-- JS truthiness of an optional string field: `undefined` (here `none`) and
the empty string are falsy; every other string is truthy. -/
def truthyO : Option String → Bool
  | none => false
  | some s => s != ""

/-- Reading `obj[key]` from a JS object modelled as an association list in
assignment order: the latest assignment to the key wins. -/
def jsGet (m : List (String × String)) (k : String) : Option String :=
  (m.reverse.find? (fun e => e.1 == k)).map (fun e => e.2)

/-- Membership in the identifier set (`identifierSet[id]` is truthy exactly
when `id` was assigned `true` during the tree walk). -/
def jsHasKey (s : List String) (k : String) : Bool := s.contains k

/-- A node of the connection group tree fetched from the backend
(`rootGroup` and its `childConnectionGroups`). -/
inductive GroupNode where
  | mk (identifier : String) (name : String) (childConnectionGroups : List GroupNode)

/-- The identifier of the root connection group (`ROOT_GROUP_IDENTIFIER`). -/
def ROOT_GROUP_IDENTIFIER : String := "ROOT"

mutual

/-- The `saveLookups` tree walk of `getGroupLookups`, returning the sequence
of `groupLookups[currentPath] = group.identifier` assignments it performs:
the current node's path is `pre ++ name`, and its children are visited with
the extended path `pre ++ name ++ "/"` as their path stem. Each visit also
assigns `identifierSet[group.identifier] = true`, so the identifier
assignments are exactly the second components of these entries, in the same
order (see `buildGroupLookups`). -/
def saveLookupsEntries : String → GroupNode → List (String × String)
  | pre, .mk identifier name childConnectionGroups =>
    (pre ++ name, identifier) ::
      saveLookupsList (pre ++ name ++ "/") childConnectionGroups

/-- The `_.forEach` over a node's children inside `saveLookups`. -/
def saveLookupsList : String → List GroupNode → List (String × String)
  | _, [] => []
  | pre, g :: gs => saveLookupsEntries pre g ++ saveLookupsList pre gs

end

/-- The pair of lookup structures resolved by `getGroupLookups`: the
path-to-identifier map and the set of known identifiers. -/
structure GroupLookups where
  groupLookups : List (String × String)
  identifierSet : List String
deriving Repr, DecidableEq

/-- `getGroupLookups` applied to an already-fetched tree: start the
`saveLookups` walk at the root with the empty path stem. -/
def buildGroupLookups (rootGroup : GroupNode) : GroupLookups :=
  let entries := saveLookupsEntries "" rootGroup
  { groupLookups := entries, identifierSet := entries.map (fun e => e.2) }

/-- The error thrown for an unknown `parentIdentifier`. -/
def invalidIdentifierError (parentIdentifier : String) : ParseError :=
  { message := "No group with identifier: " ++ parentIdentifier,
    key := some "IMPORT.ERROR_INVALID_GROUP_IDENTIFIER",
    vars := some [("IDENTIFIER", parentIdentifier)] }

/-- The error thrown when both `group` and `parentIdentifier` are set. -/
def ambiguousParentError : ParseError :=
  { message := "Only one of group or parentIdentifier can be set",
    key := some "IMPORT.ERROR_AMBIGUOUS_PARENT_GROUP" }

/-- The error thrown when a group path matches nothing in the tree; it
carries the original, non-normalized group string. -/
def invalidGroupError (group : String) : ParseError :=
  { message := "No group found named: " ++ group,
    key := some "IMPORT.ERROR_INVALID_GROUP",
    vars := some [("GROUP", group)] }

/-- Whether the character list `s` starts with the character list `pat`
(the matcher behind the JS `String.prototype.startsWith` and, on reversed
lists, `endsWith`; written out so that proofs can evaluate it). -/
def charsStartWith : List Char → List Char → Bool
  | [], _ => true
  | _ :: _, [] => false
  | p :: ps, c :: cs => p == c && charsStartWith ps cs

/-- JS `s.startsWith(pat)` on the underlying character lists. -/
def strStartsWith (s pat : String) : Bool := charsStartWith pat.data s.data

/-- JS `s.endsWith(pat)` on the underlying character lists. -/
def strEndsWith (s pat : String) : Bool :=
  charsStartWith pat.data.reverse s.data.reverse

/-- JS `s.slice(0, -1)`: the string without its last character. -/
def strDropLast (s : String) : String := ⟨s.data.dropLast⟩

/-- The group-path normalization inside the transformer of
`getGroupTransformer`: a leading `/` gets the root identifier prepended; a
path not starting with the root identifier gets `ROOT/` prepended; one
trailing `/` is stripped (`group.slice(0, -1)`). -/
def normalizeGroupPath (g : String) : String :=
  let g1 :=
    if strStartsWith g "/" then ROOT_GROUP_IDENTIFIER ++ g
    else if !(strStartsWith g ROOT_GROUP_IDENTIFIER) then
      ROOT_GROUP_IDENTIFIER ++ "/" ++ g
    else g
  if strEndsWith g1 "/" then strDropLast g1 else g1

/-- The tail of the transformer, reached when the record has a truthy
`group` (passed here as `g`) and no truthy `parentIdentifier`: normalize the
path, look it up, and either throw `IMPORT.ERROR_INVALID_GROUP` (when the
lookup result `groupLookups[group]` is falsy) or return the record with
`parentIdentifier` set to the identifier found. Note the source spreads the
original object (`{...connection, parentIdentifier: identifier}`), so every
other field — `group` included — is kept. -/
def resolveGroupPath (gl : GroupLookups) (c : ImportRecord) (g : String) :
    Except ParseError ImportRecord :=
  let identifier := jsGet gl.groupLookups (normalizeGroupPath g)
  if !(truthyO identifier) then .error (invalidGroupError g)
  else .ok { c with parentIdentifier := identifier }

/-- The transformer returned by `getGroupTransformer`. In the source, the
`if (!connection.group)` block always returns or throws (its two inner
branches are exhaustive once `parentIdentifier`'s truthiness is decided), so
it is rendered as the first branch of this conditional. -/
def resolveGroup (gl : GroupLookups) (c : ImportRecord) :
    Except ParseError ImportRecord :=
  if !(truthyO c.group) then
    if !(truthyO c.parentIdentifier)
        || jsHasKey gl.identifierSet (c.parentIdentifier.getD "") then .ok c
    else .error (invalidIdentifierError (c.parentIdentifier.getD ""))
  else if truthyO c.parentIdentifier then .error ambiguousParentError
  else resolveGroupPath gl c (c.group.getD "")

/-- The input handed to `parseConnectionData`: either a JS array of records
or some other value (a non-array), which only `performBasicChecks` looks
at. -/
inductive ParseInput where
  | array (rows : List ImportRecord)
  | other
deriving Repr, DecidableEq

/-- The batch-level error for non-array input. -/
def arrayRequiredError : ParseError :=
  { message := "Import data must be a list of connections",
    key := some "IMPORT.ERROR_ARRAY_REQUIRED" }

/-- The batch-level error for an empty connection list. -/
def emptyFileError : ParseError :=
  { message := "The provided file is empty",
    key := some "IMPORT.ERROR_EMPTY_FILE" }

/-- `performBasicChecks`: the parsed data must be an array
(`parsedData instanceof Array`) and non-empty (`!parsedData.length` is the
JS falsiness test on the length). -/
def performBasicChecks : ParseInput → Option ParseError
  | .other => some arrayRequiredError
  | .array rows => if rows.length = 0 then some emptyFileError else none

/-- A format-specific transform function handed to `parseConnectionData`.
A JS function may throw, so a transform is fallible; a well-behaved adapter
always returns `.ok`. -/
def Transform : Type := ImportRecord → Except ParseError ImportRecord

/-- The `_.forEach(transformFunctions, ...)` stage of the per-record body:
apply each transform in order. An exception thrown here is outside the
source's `try` block, so it propagates (an `.error` aborts the chain). -/
def applyTransforms : List Transform → ImportRecord → Except ParseError ImportRecord
  | [], c => .ok c
  | t :: ts, c =>
    match t c with
    | .ok c2 => applyTransforms ts c2
    | .error e => .error e

/-- Everything the per-record body of the `reduce` derives from one
(post-adapter) record: its creation patch, its issue list, and the `users`
and `groups` arrays extracted for grant indexing. -/
structure RecordOutcome where
  patch : DirectoryPatch
  issues : List ParseError
  users : List String
  groups : List String
deriving Repr, DecidableEq

/-- The per-record body after the adapter stage: try the group transformer,
catching its error into this record's issue list and keeping the
pre-resolution object in that case; extract `users`/`groups` (with `|| []`
defaulting) from the possibly-unresolved object; and build the
`{op: 'add', path: '/', value: new Connection(...)}` patch from it. -/
def outcomeOf (gl : GroupLookups) (c : ImportRecord) : RecordOutcome :=
  let step :=
    match resolveGroup gl c with
    | .ok c2 => (c2, ([] : List ParseError))
    | .error e => (c, [e])
  { patch := { op := "add", path := "/", value := ⟨step.1⟩ },
    issues := step.2,
    users := step.1.users.getD [],
    groups := step.1.groups.getD [] }

/-- One full per-record step: the adapter stage (whose failure propagates)
followed by the caught remainder. -/
def processRecord (gl : GroupLookups) (trs : List Transform)
    (data : ImportRecord) : Except ParseError RecordOutcome :=
  (applyTransforms trs data).map (outcomeOf gl)

/-- The `users[identifier]` / `groups[identifier]` update of the grantee
index: push the record index onto the existing list for this key, or create
a fresh one-element list if the key is absent. -/
def pushIndex : List (String × List Nat) → String → Nat → List (String × List Nat)
  | [], k, i => [(k, [i])]
  | e :: rest, k, i =>
    if e.1 == k then (e.1, e.2 ++ [i]) :: rest else e :: pushIndex rest k i

/-- The `forEach` over one record's extracted identifiers, pushing the
record index for each of them. -/
def addGrants (m : List (String × List Nat)) (ids : List String) (i : Nat) :
    List (String × List Nat) :=
  ids.foldl (fun acc k => pushIndex acc k i) m

/-- Folding one record's outcome into the accumulated `ParseResult`: append
the patch and the issue list, index the grants under the record's index, and
raise `hasErrors` if this record contributed any issue. -/
def foldOutcome (index : Nat) (res : ParseResult) (o : RecordOutcome) :
    ParseResult :=
  { patches := res.patches ++ [o.patch],
    users := addGrants res.users o.users index,
    groups := addGrants res.groups o.groups index,
    errors := res.errors ++ [o.issues],
    hasErrors := res.hasErrors || !o.issues.isEmpty }

/-- The `connectionData.reduce` loop: process each record in order,
threading the accumulator and the record index; an uncaught (adapter)
exception rejects the whole computation. -/
def parseLoop (gl : GroupLookups) (trs : List Transform) :
    List ImportRecord → Nat → ParseResult → Except ParseError ParseResult
  | [], _, res => .ok res
  | r :: rest, index, res =>
    match processRecord gl trs r with
    | .error e => .error e
    | .ok o => parseLoop gl trs rest (index + 1) (foldOutcome index res o)

/-- The records carried by an input, for the post-check phase (unreachable
for non-array input, which `performBasicChecks` already rejected). -/
def rowsOf : ParseInput → List ImportRecord
  | .array rows => rows
  | .other => []

/-- `parseConnectionData`: run the basic checks, rejecting on their error,
then fold all records starting from an empty `ParseResult`. The group
lookups (resolved asynchronously in the source before the fold starts) are
a parameter. -/
def parseConnectionData (input : ParseInput) (trs : List Transform)
    (gl : GroupLookups) : Except ParseError ParseResult :=
  match performBasicChecks input with
  | some e => .error e
  | none => parseLoop gl trs (rowsOf input) 0 {}

/-- Reading the grantee index map at one identifier: the list of record
indices stored there, empty when the key is absent. -/
def lookupIndices (m : List (String × List Nat)) (k : String) : List Nat :=
  ((m.find? (fun e => e.1 == k)).map (fun e => e.2)).getD []

/-- A concrete group tree used by witnesses: a root named `ROOT` with one
child named `sub`. -/
def exTree : GroupNode := .mk "r-id" "ROOT" [.mk "g1" "sub" []]

/-- The lookups built from `exTree`. -/
def exLookups : GroupLookups := buildGroupLookups exTree

example : saveLookupsEntries "" exTree = [("ROOT", "r-id"), ("ROOT/sub", "g1")] := by
  decide

example : normalizeGroupPath "sub" = "ROOT/sub" := by decide

example : resolveGroup exLookups { group := some "sub" } =
    .ok { group := some "sub", parentIdentifier := some "g1" } := by decide

/-- A truthy optional string is a `some` of a non-empty string. -/
lemma truthyO_some {s : String} (h : s ≠ "") : truthyO (some s) = true := by
  simp [truthyO, h]

/-- A falsy optional string is `none` or `some ""`. -/
lemma truthyO_eq_false {o : Option String} :
    truthyO o = false ↔ o = none ∨ o = some "" := by
  cases o with
  | none => simp [truthyO]
  | some s => simp [truthyO]

/-- When the record has a truthy `group`, a falsy `parentIdentifier`, and the
normalized path looks up to a truthy identifier, the transformer returns the
record with `parentIdentifier` set to that identifier (all other fields,
`group` included, are spread through unchanged). -/
lemma resolveGroup_ok_of_found (gl : GroupLookups) (c : ImportRecord)
    (g id : String) (hg : c.group = some g) (hgne : g ≠ "")
    (hp : truthyO c.parentIdentifier = false)
    (hid : jsGet gl.groupLookups (normalizeGroupPath g) = some id)
    (hidne : id ≠ "") :
    resolveGroup gl c = .ok { c with parentIdentifier := some id } := by
  simp [resolveGroup, hg, truthyO_some hgne, hp, resolveGroupPath, hid,
    truthyO_some hidne]

/-- When the record has a truthy `group`, a falsy `parentIdentifier`, and the
normalized path looks up to a falsy result (absent key or empty identifier),
the transformer throws `IMPORT.ERROR_INVALID_GROUP` carrying the original
group string. -/
lemma resolveGroup_err_of_notFound (gl : GroupLookups) (c : ImportRecord)
    (g : String) (hg : c.group = some g) (hgne : g ≠ "")
    (hp : truthyO c.parentIdentifier = false)
    (hnf : truthyO (jsGet gl.groupLookups (normalizeGroupPath g)) = false) :
    resolveGroup gl c = .error (invalidGroupError g) := by
  simp [resolveGroup, hg, truthyO_some hgne, hp, resolveGroupPath, hnf]

/-- A successful resolution never changes the `users` and `groups` fields of
the record (it either returns it unchanged or only sets
`parentIdentifier`). -/
lemma resolveGroup_ok_users_groups (gl : GroupLookups) (c r' : ImportRecord)
    (h : resolveGroup gl c = .ok r') :
    r'.users = c.users ∧ r'.groups = c.groups := by
  unfold resolveGroup at h
  split at h
  · split at h
    · cases h; exact ⟨rfl, rfl⟩
    · cases h
  · split at h
    · cases h
    · simp only [resolveGroupPath] at h
      split at h
      · cases h
      · cases h; exact ⟨rfl, rfl⟩

/-- C3: a record with a (truthy) `group` field and a (truthy)
`parentIdentifier` field always fails with the ambiguous-parent error; the
lookup structures are arbitrary, so the failure does not depend on whether
the group path (or the parent identifier) is valid — the ambiguity check
runs before path validity is ever consulted, and neither field is silently
preferred. -/
theorem resolver_ambiguous_before_validity (gl : GroupLookups)
    (c : ImportRecord) (g p : String) (hg : c.group = some g) (hgne : g ≠ "")
    (hp : c.parentIdentifier = some p) (hpne : p ≠ "") :
    resolveGroup gl c = .error ambiguousParentError := by
  simp [resolveGroup, hg, hp, truthyO_some hgne, truthyO_some hpne]

/-- C3 witness: a record naming both a resolvable group path (`sub` exists
under `exTree`) and a known parent identifier (`g1`) still fails with the
ambiguous-parent error. -/
theorem resolver_ambiguous_before_validity_witness :
    resolveGroup exLookups { group := some "sub", parentIdentifier := some "g1" } =
      .error ambiguousParentError :=
  resolver_ambiguous_before_validity exLookups
    { group := some "sub", parentIdentifier := some "g1" } "sub" "g1"
    rfl (by decide) rfl (by decide)

/-- C10: field presence at the transformer's interface is decided by JS
truthiness, so an empty-string field behaves as an absent one. With
`group == ""`: the no-group branch applies, the record passes unchanged when
`parentIdentifier` is falsy or known, and an unknown non-empty
`parentIdentifier` fails with the invalid-identifier error. With a non-empty
`group` and `parentIdentifier == ""`: the transformer does not throw the
ambiguous-parent error but proceeds to normalize and resolve the group
path. -/
theorem resolver_truthiness (gl : GroupLookups) :
    (∀ c : ImportRecord, c.group = some "" →
      truthyO c.parentIdentifier = false → resolveGroup gl c = .ok c) ∧
    (∀ (c : ImportRecord) (p : String), c.group = some "" →
      c.parentIdentifier = some p → p ≠ "" →
      jsHasKey gl.identifierSet p = true → resolveGroup gl c = .ok c) ∧
    (∀ (c : ImportRecord) (p : String), c.group = some "" →
      c.parentIdentifier = some p → p ≠ "" →
      jsHasKey gl.identifierSet p = false →
      resolveGroup gl c = .error (invalidIdentifierError p)) ∧
    (∀ (c : ImportRecord) (g : String), c.group = some g → g ≠ "" →
      c.parentIdentifier = some "" →
      resolveGroup gl c = resolveGroupPath gl c g ∧
      resolveGroup gl c ≠ .error ambiguousParentError) := by
  have hempty : truthyO (some "") = false := rfl
  refine ⟨?_, ?_, ?_, ?_⟩
  · intro c hg hp
    simp [resolveGroup, hg, hp, hempty]
  · intro c p hg hp hpne hk
    simp [resolveGroup, hg, hp, hempty, truthyO_some hpne, hk]
  · intro c p hg hp hpne hk
    simp [resolveGroup, hg, hp, hempty, truthyO_some hpne, hk]
  · intro c g hg hgne hp
    have hmain : resolveGroup gl c = resolveGroupPath gl c g := by
      simp [resolveGroup, hg, hp, hempty, truthyO_some hgne]
    refine ⟨hmain, ?_⟩
    rw [hmain]
    simp only [resolveGroupPath]
    split
    · intro hcontra
      have := (Except.error.inj hcontra)
      have : (invalidGroupError g).key = ambiguousParentError.key := by rw [this]
      simp [invalidGroupError, ambiguousParentError] at this
    · intro hcontra
      cases hcontra

/-- C10 witness: against `exTree`'s lookups — a record with `group == ""`
and no `parentIdentifier` passes unchanged; one with `group == ""` and the
known identifier `g1` passes unchanged; one with `group == ""` and the
unknown identifier `nope` fails with the invalid-identifier error; and one
with `group == "sub"` and `parentIdentifier == ""` resolves the path instead
of failing as ambiguous. -/
theorem resolver_truthiness_witness :
    resolveGroup exLookups { group := some "" } = .ok { group := some "" } ∧
    resolveGroup exLookups { group := some "", parentIdentifier := some "g1" } =
      .ok { group := some "", parentIdentifier := some "g1" } ∧
    resolveGroup exLookups { group := some "", parentIdentifier := some "nope" } =
      .error (invalidIdentifierError "nope") ∧
    (resolveGroup exLookups { group := some "sub", parentIdentifier := some "" } =
        resolveGroupPath exLookups { group := some "sub", parentIdentifier := some "" } "sub" ∧
      resolveGroup exLookups { group := some "sub", parentIdentifier := some "" } ≠
        .error ambiguousParentError) :=
  ⟨(resolver_truthiness exLookups).1 { group := some "" } rfl rfl,
   (resolver_truthiness exLookups).2.1
     { group := some "", parentIdentifier := some "g1" } "g1" rfl rfl
     (by decide) (by decide),
   (resolver_truthiness exLookups).2.2.1
     { group := some "", parentIdentifier := some "nope" } "nope" rfl rfl
     (by decide) (by decide),
   (resolver_truthiness exLookups).2.2.2
     { group := some "sub", parentIdentifier := some "" } "sub" rfl
     (by decide) rfl⟩

/-- C2 counterexample: against `exTree`'s lookups (which contain the path
`ROOT/sub` with identifier `g1`), resolving the record `{group: "sub"}`
succeeds and sets `parentIdentifier := "g1"`, but the returned record still
carries `group = some "sub"`: the source spreads the original object, so the
`group` field is *not* removed, contradicting the claim's "the group field
has been removed". -/
theorem resolver_group_removed_counterexample :
    resolveGroup exLookups { group := some "sub" } =
      .ok { group := some "sub", parentIdentifier := some "g1" } ∧
    ({ group := some "sub", parentIdentifier := some "g1" } : ImportRecord).group ≠ none := by
  decide

/-- C2 (amended): for a record with a truthy `group` field and a falsy
`parentIdentifier`, when the normalized path is found in the lookup map with
a non-empty identifier, the transformer returns a new record with
`parentIdentifier` set to that identifier and every other field — the
`group` field included — retained unchanged (not removed); when the lookup
is falsy (path absent, or mapped to an empty identifier), it fails with the
`IMPORT.ERROR_INVALID_GROUP` error carrying the original, non-normalized
group string in its variables. -/
theorem resolver_group_resolution (gl : GroupLookups) (c : ImportRecord)
    (g : String) (hg : c.group = some g) (hgne : g ≠ "")
    (hp : truthyO c.parentIdentifier = false) :
    (∀ id : String, jsGet gl.groupLookups (normalizeGroupPath g) = some id →
      id ≠ "" → resolveGroup gl c = .ok { c with parentIdentifier := some id }) ∧
    (truthyO (jsGet gl.groupLookups (normalizeGroupPath g)) = false →
      resolveGroup gl c = .error (invalidGroupError g)) :=
  ⟨fun id hid hidne => resolveGroup_ok_of_found gl c g id hg hgne hp hid hidne,
   fun hnf => resolveGroup_err_of_notFound gl c g hg hgne hp hnf⟩

/-- C2 witness: `{group: "sub"}` resolves against `exTree`'s lookups to the
same record with `parentIdentifier := "g1"` (and `group` retained), and
`{group: "Missing/Path"}` fails with the invalid-group error carrying the
original string `Missing/Path`. -/
theorem resolver_group_resolution_witness :
    resolveGroup exLookups { group := some "sub" } =
      .ok { group := some "sub", parentIdentifier := some "g1" } ∧
    resolveGroup exLookups { group := some "Missing/Path" } =
      .error (invalidGroupError "Missing/Path") :=
  ⟨(resolver_group_resolution exLookups { group := some "sub" } "sub" rfl
      (by decide) rfl).1 "g1" (by decide) (by decide),
   (resolver_group_resolution exLookups { group := some "Missing/Path" }
      "Missing/Path" rfl (by decide) rfl).2 (by decide)⟩

/-- C8: path normalization makes the three user-facing spellings plus a
trailing slash equivalent — against any lookup structure whose map sends
`ROOT/sub` to a (non-empty) identifier, resolving records whose group is
`sub`, `/sub`, `ROOT/sub`, or `ROOT/sub/` all succeed with that same
identifier as `parentIdentifier`. -/
theorem normalization_spellings_equivalent (gl : GroupLookups) (id : String)
    (h : jsGet gl.groupLookups "ROOT/sub" = some id) (hne : id ≠ "") :
    resolveGroup gl { group := some "sub" } =
      .ok { group := some "sub", parentIdentifier := some id } ∧
    resolveGroup gl { group := some "/sub" } =
      .ok { group := some "/sub", parentIdentifier := some id } ∧
    resolveGroup gl { group := some "ROOT/sub" } =
      .ok { group := some "ROOT/sub", parentIdentifier := some id } ∧
    resolveGroup gl { group := some "ROOT/sub/" } =
      .ok { group := some "ROOT/sub/", parentIdentifier := some id } := by
  refine ⟨?_, ?_, ?_, ?_⟩
  · exact resolveGroup_ok_of_found gl _ "sub" id rfl (by decide) rfl
      (by rw [show normalizeGroupPath "sub" = "ROOT/sub" from by decide]; exact h) hne
  · exact resolveGroup_ok_of_found gl _ "/sub" id rfl (by decide) rfl
      (by rw [show normalizeGroupPath "/sub" = "ROOT/sub" from by decide]; exact h) hne
  · exact resolveGroup_ok_of_found gl _ "ROOT/sub" id rfl (by decide) rfl
      (by rw [show normalizeGroupPath "ROOT/sub" = "ROOT/sub" from by decide]; exact h) hne
  · exact resolveGroup_ok_of_found gl _ "ROOT/sub/" id rfl (by decide) rfl
      (by rw [show normalizeGroupPath "ROOT/sub/" = "ROOT/sub" from by decide]; exact h) hne

/-- C8 witness: the four spellings all resolve to `g1` against `exTree`'s
lookups. -/
theorem normalization_spellings_equivalent_witness :
    resolveGroup exLookups { group := some "sub" } =
      .ok { group := some "sub", parentIdentifier := some "g1" } ∧
    resolveGroup exLookups { group := some "/sub" } =
      .ok { group := some "/sub", parentIdentifier := some "g1" } ∧
    resolveGroup exLookups { group := some "ROOT/sub" } =
      .ok { group := some "ROOT/sub", parentIdentifier := some "g1" } ∧
    resolveGroup exLookups { group := some "ROOT/sub/" } =
      .ok { group := some "ROOT/sub/", parentIdentifier := some "g1" } :=
  normalization_spellings_equivalent exLookups "g1" (by decide) (by decide)

/-- C5: when group resolution fails on a (post-adapter) record, the record's
outcome carries exactly that one issue, and the creation patch and the
extracted `users`/`groups` grant arrays all come from the pre-resolution
record shape (with `|| []` defaulting); moreover the `users`/`groups`
extraction happens for every record, whether or not resolution succeeded
(the second record `c2` is arbitrary). -/
theorem record_failure_isolation (gl : GroupLookups) (c c2 : ImportRecord)
    (e : ParseError) (h : resolveGroup gl c = .error e) :
    outcomeOf gl c =
      { patch := { op := "add", path := "/", value := ⟨c⟩ },
        issues := [e],
        users := c.users.getD [],
        groups := c.groups.getD [] } ∧
    (outcomeOf gl c2).users = c2.users.getD [] ∧
    (outcomeOf gl c2).groups = c2.groups.getD [] := by
  refine ⟨by simp [outcomeOf, h], ?_, ?_⟩
  · unfold outcomeOf
    cases h2 : resolveGroup gl c2 with
    | ok r' => simp [h2, (resolveGroup_ok_users_groups gl c2 r' h2).1]
    | error e2 => simp [h2]
  · unfold outcomeOf
    cases h2 : resolveGroup gl c2 with
    | ok r' => simp [h2, (resolveGroup_ok_users_groups gl c2 r' h2).2]
    | error e2 => simp [h2]

/-- A concrete record whose group path is missing from `exTree`, with grant
arrays, used by witnesses. -/
def recMissing : ImportRecord :=
  { group := some "Missing/Path", users := some ["alice"], groups := some ["grp"] }

/-- A concrete record that resolves successfully against `exTree`, with a
grant array, used by witnesses. -/
def recBob : ImportRecord := { group := some "sub", users := some ["bob"] }

/-- C5 witness: a record whose group path is missing gets exactly the
invalid-group issue while its patch and grant arrays come from the record
itself; a successfully resolving record also has its grant arrays
extracted. -/
theorem record_failure_isolation_witness :
    outcomeOf exLookups recMissing =
      { patch := { op := "add", path := "/", value := ⟨recMissing⟩ },
        issues := [invalidGroupError "Missing/Path"],
        users := ["alice"], groups := ["grp"] } ∧
    (outcomeOf exLookups recBob).users = ["bob"] ∧
    (outcomeOf exLookups recBob).groups = [] :=
  record_failure_isolation exLookups recMissing recBob
    (invalidGroupError "Missing/Path") (by decide)

/-- C6: the batch preconditions are checked before any per-record work —
whatever the transforms and lookup structures are, a non-array input fails
with the `IMPORT.ERROR_ARRAY_REQUIRED` error and an empty array fails with
the `IMPORT.ERROR_EMPTY_FILE` error; in both cases the whole computation is
the rejection, so no partial `ParseResult` is produced. -/
theorem basic_checks_first (trs : List Transform) (gl : GroupLookups) :
    parseConnectionData .other trs gl = .error arrayRequiredError ∧
    parseConnectionData (.array []) trs gl = .error emptyFileError ∧
    arrayRequiredError.key = some "IMPORT.ERROR_ARRAY_REQUIRED" ∧
    emptyFileError.key = some "IMPORT.ERROR_EMPTY_FILE" :=
  ⟨rfl, rfl, rfl, rfl⟩

/-- Processing every record of a batch in order, stopping at the first
uncaught (adapter) exception — the list-level view of the sequence of
`processRecord` calls that `parseLoop` makes. -/
def processAll (gl : GroupLookups) (trs : List Transform) :
    List ImportRecord → Except ParseError (List RecordOutcome)
  | [] => .ok []
  | r :: rest =>
    match processRecord gl trs r with
    | .error e => .error e
    | .ok o =>
      match processAll gl trs rest with
      | .error e => .error e
      | .ok os => .ok (o :: os)

/-- Folding a list of record outcomes into an accumulator, numbering them
from `idx` — the pure residue of `parseLoop` once every `processRecord`
call is known to succeed. -/
def foldOutcomes : Nat → ParseResult → List RecordOutcome → ParseResult
  | _, res, [] => res
  | idx, res, o :: os => foldOutcomes (idx + 1) (foldOutcome idx res o) os

/-- When every record processes successfully, `parseLoop` is the pure fold
of the outcomes. -/
lemma parseLoop_eq_foldOutcomes (gl : GroupLookups) (trs : List Transform) :
    ∀ (rows : List ImportRecord) (os : List RecordOutcome) (idx : Nat)
      (acc : ParseResult), processAll gl trs rows = .ok os →
      parseLoop gl trs rows idx acc = .ok (foldOutcomes idx acc os) := by
  intro rows
  induction rows with
  | nil =>
    intro os idx acc h
    cases h
    rfl
  | cons r rest ih =>
    intro os idx acc h
    unfold processAll at h
    unfold parseLoop
    cases hr : processRecord gl trs r with
    | error e => rw [hr] at h; cases h
    | ok o =>
      rw [hr] at h
      cases hrest : processAll gl trs rest with
      | error e => rw [hrest] at h; cases h
      | ok os' =>
        rw [hrest] at h
        cases h
        exact ih os' (idx + 1) (foldOutcome idx acc o) hrest

/-- The first uncaught exception rejects the whole loop: if every record of
`pre` processes successfully and `r`'s processing throws `e`, the loop over
`pre ++ r :: post` is the rejection with `e`. -/
lemma parseLoop_error_of_mid (gl : GroupLookups) (trs : List Transform)
    (r : ImportRecord) (post : List ImportRecord) (e : ParseError)
    (hr : processRecord gl trs r = .error e) :
    ∀ (pre : List ImportRecord) (idx : Nat) (acc : ParseResult),
      (∀ p ∈ pre, ∃ o, processRecord gl trs p = .ok o) →
      parseLoop gl trs (pre ++ r :: post) idx acc = .error e := by
  intro pre
  induction pre with
  | nil =>
    intro idx acc _
    simp [parseLoop, hr]
  | cons p rest ih =>
    intro idx acc hpre
    obtain ⟨o, ho⟩ := hpre p (List.mem_cons_self p rest)
    show parseLoop gl trs (p :: (rest ++ r :: post)) idx acc = .error e
    unfold parseLoop
    rw [ho]
    exact ih (idx + 1) (foldOutcome idx acc o)
      (fun q hq => hpre q (List.mem_cons_of_mem p hq))

/-- The record-by-record content of a successful `processAll` run. -/
lemma processAll_forall₂ (gl : GroupLookups) (trs : List Transform) :
    ∀ (rows : List ImportRecord) (os : List RecordOutcome),
      processAll gl trs rows = .ok os →
      List.Forall₂ (fun r o => processRecord gl trs r = .ok o) rows os := by
  intro rows
  induction rows with
  | nil =>
    intro os h
    cases h
    exact List.Forall₂.nil
  | cons r rest ih =>
    intro os h
    unfold processAll at h
    cases hr : processRecord gl trs r with
    | error e => rw [hr] at h; cases h
    | ok o =>
      rw [hr] at h
      cases hrest : processAll gl trs rest with
      | error e => rw [hrest] at h; cases h
      | ok os' =>
        rw [hrest] at h
        cases h
        exact List.Forall₂.cons hr (ih os' hrest)

/-- Adapters that never throw make the whole adapter stage succeed. -/
lemma applyTransforms_total (trs : List Transform)
    (ht : ∀ t ∈ trs, ∀ r : ImportRecord, ∃ r2, t r = .ok r2) :
    ∀ r : ImportRecord, ∃ c, applyTransforms trs r = .ok c := by
  induction trs with
  | nil => exact fun r => ⟨r, rfl⟩
  | cons t ts ih =>
    intro r
    obtain ⟨r2, hr2⟩ := ht t (List.mem_cons_self t ts) r
    obtain ⟨c, hc⟩ := ih (fun u hu => ht u (List.mem_cons_of_mem t hu)) r2
    exact ⟨c, by unfold applyTransforms; rw [hr2]; exact hc⟩

/-- Adapters that never throw make every record's processing succeed, hence
the whole batch's. -/
lemma processAll_total (gl : GroupLookups) (trs : List Transform)
    (ht : ∀ t ∈ trs, ∀ r : ImportRecord, ∃ r2, t r = .ok r2) :
    ∀ rows : List ImportRecord, ∃ os, processAll gl trs rows = .ok os := by
  intro rows
  induction rows with
  | nil => exact ⟨[], rfl⟩
  | cons r rest ih =>
    obtain ⟨c, hc⟩ := applyTransforms_total trs ht r
    obtain ⟨os, hos⟩ := ih
    refine ⟨outcomeOf gl c :: os, ?_⟩
    unfold processAll
    rw [show processRecord gl trs r = .ok (outcomeOf gl c) by
      unfold processRecord; rw [hc]; rfl]
    rw [hos]

/-- The patches accumulated by the fold are the accumulator's followed by
one patch per outcome, in order. -/
lemma foldOutcomes_patches :
    ∀ (os : List RecordOutcome) (idx : Nat) (acc : ParseResult),
      (foldOutcomes idx acc os).patches = acc.patches ++ os.map (fun o => o.patch) := by
  intro os
  induction os with
  | nil => intro idx acc; simp [foldOutcomes]
  | cons o rest ih =>
    intro idx acc
    unfold foldOutcomes
    rw [ih]
    simp [foldOutcome]

/-- The issue lists accumulated by the fold are the accumulator's followed
by one issue list per outcome, in order. -/
lemma foldOutcomes_errors :
    ∀ (os : List RecordOutcome) (idx : Nat) (acc : ParseResult),
      (foldOutcomes idx acc os).errors = acc.errors ++ os.map (fun o => o.issues) := by
  intro os
  induction os with
  | nil => intro idx acc; simp [foldOutcomes]
  | cons o rest ih =>
    intro idx acc
    unfold foldOutcomes
    rw [ih]
    simp [foldOutcome]

/-- C1: for every non-empty batch (and any lookups), as long as the
adapters are total — the spec's standing assumption on them — the fold
produces a result with exactly one creation patch and one (possibly empty)
issue list per input record, index-aligned with the input: both lists have
the input's length, and the patch and issue list at index `i` are the ones
computed by the per-record pipeline from input record `i` (an op is present
even when that record's issue list is non-empty). -/
theorem batch_shape (gl : GroupLookups) (trs : List Transform)
    (rows : List ImportRecord) (hne : rows ≠ [])
    (ht : ∀ t ∈ trs, ∀ r : ImportRecord, ∃ r2, t r = .ok r2) :
    ∃ res, parseConnectionData (.array rows) trs gl = .ok res ∧
      res.patches.length = rows.length ∧
      res.errors.length = rows.length ∧
      ∀ (i : Nat) (hi : i < rows.length), ∃ o,
        processRecord gl trs (rows.get ⟨i, hi⟩) = .ok o ∧
        res.patches[i]? = some o.patch ∧
        res.errors[i]? = some o.issues := by
  obtain ⟨os, hos⟩ := processAll_total gl trs ht rows
  have hf2 := processAll_forall₂ gl trs rows os hos
  have hlen : rows.length = os.length := List.Forall₂.length_eq hf2
  have hchk : performBasicChecks (.array rows) = none := by
    simp [performBasicChecks, List.length_eq_zero, hne]
  have hpat : (foldOutcomes 0 {} os).patches = os.map (fun o => o.patch) := by
    rw [foldOutcomes_patches]; rfl
  have herr : (foldOutcomes 0 {} os).errors = os.map (fun o => o.issues) := by
    rw [foldOutcomes_errors]; rfl
  refine ⟨foldOutcomes 0 {} os, ?_, ?_, ?_, ?_⟩
  · unfold parseConnectionData
    rw [hchk]
    exact parseLoop_eq_foldOutcomes gl trs rows os 0 {} hos
  · rw [hpat, List.length_map, hlen]
  · rw [herr, List.length_map, hlen]
  · intro i hi
    have hi' : i < os.length := hlen ▸ hi
    rw [List.forall₂_iff_get] at hf2
    refine ⟨os.get ⟨i, hi'⟩, hf2.2 i hi hi', ?_, ?_⟩
    · rw [hpat, List.getElem?_map, List.getElem?_eq_getElem hi']
      rfl
    · rw [herr, List.getElem?_map, List.getElem?_eq_getElem hi']
      rfl

/-- A two-record batch used by witnesses: a resolvable record followed by
one whose group path is unknown. -/
def exRows : List ImportRecord := [recBob, recMissing]

/-- C1 witness: the two-record batch `exRows`, with no adapters, against
`exTree`'s lookups. -/
theorem batch_shape_witness :
    ∃ res, parseConnectionData (.array exRows) [] exLookups = .ok res ∧
      res.patches.length = exRows.length ∧
      res.errors.length = exRows.length ∧
      ∀ (i : Nat) (hi : i < exRows.length), ∃ o,
        processRecord exLookups [] (exRows.get ⟨i, hi⟩) = .ok o ∧
        res.patches[i]? = some o.patch ∧
        res.errors[i]? = some o.issues :=
  batch_shape exLookups [] exRows (by decide) (by simp)

/-- The error a deliberately failing adapter throws, used to probe the
pipeline's exception handling. -/
def boomError : ParseError := { message := "adapter failure" }

/-- An adapter that always throws. -/
def throwingTransform : Transform := fun _ => .error boomError

/-- An adapter that throws exactly on the record whose group is
`Missing/Path` and passes every other record through. -/
def selectiveThrow : Transform := fun c =>
  if c.group = some "Missing/Path" then .error boomError else .ok c

/-- C4 counterexample: with an adapter that throws, a two-record batch does
not produce a `ParseResult` with the failure folded into record 0's issue
list — the adapter stage runs outside the source's `try` block, so the
exception escapes the `reduce` and the whole batch is rejected with the
adapter's error, contradicting "caught and folded ... never aborts
processing of the rest of the batch". -/
theorem adapter_failure_counterexample :
    parseConnectionData (.array exRows) [throwingTransform] exLookups =
      .error boomError := by
  decide

/-- C4 (amended): an adapter failure is *not* caught per record — only the
group transformer runs inside the `try` block. If every record before `r`
processes successfully and an adapter throws `e` on `r`, the whole batch
computation is rejected with `e`: no record after `r` is processed and no
`ParseResult` is produced. -/
theorem adapter_failure_aborts_batch (gl : GroupLookups) (trs : List Transform)
    (pre : List ImportRecord) (r : ImportRecord) (post : List ImportRecord)
    (e : ParseError) (hpre : ∀ p ∈ pre, ∃ o, processRecord gl trs p = .ok o)
    (hr : applyTransforms trs r = .error e) :
    parseConnectionData (.array (pre ++ r :: post)) trs gl = .error e := by
  have hchk : performBasicChecks (.array (pre ++ r :: post)) = none := by
    simp [performBasicChecks]
  unfold parseConnectionData
  rw [hchk]
  exact parseLoop_error_of_mid gl trs r post e
    (by unfold processRecord; rw [hr]; rfl) pre 0 {} hpre

/-- C4 witness: with the selectively-throwing adapter, the batch processes
`recBob` fine and is then rejected with the adapter's error at
`recMissing`. -/
theorem adapter_failure_aborts_batch_witness :
    parseConnectionData (.array ([recBob] ++ recMissing :: [])) [selectiveThrow]
      exLookups = .error boomError :=
  adapter_failure_aborts_batch exLookups [selectiveThrow] [recBob] recMissing []
    boomError
    (by
      intro p hp
      rw [List.mem_singleton] at hp
      subst hp
      exact ⟨outcomeOf exLookups recBob, by decide⟩)
    (by decide)

/-- Reading an association list whose head's key matches. -/
lemma lookupIndices_cons_pos (e : String × List Nat)
    (rest : List (String × List Nat)) (k : String) (he : (e.1 == k) = true) :
    lookupIndices (e :: rest) k = e.2 := by
  simp [lookupIndices, List.find?, he]

/-- Reading an association list whose head's key does not match. -/
lemma lookupIndices_cons_neg (e : String × List Nat)
    (rest : List (String × List Nat)) (k : String) (he : (e.1 == k) = false) :
    lookupIndices (e :: rest) k = lookupIndices rest k := by
  simp [lookupIndices, List.find?, he]

/-- Pushing an index for key `k` appends it to exactly `k`'s list. -/
lemma lookupIndices_pushIndex_self :
    ∀ (m : List (String × List Nat)) (k : String) (i : Nat),
      lookupIndices (pushIndex m k i) k = lookupIndices m k ++ [i] := by
  intro m k i
  induction m with
  | nil =>
    rw [show pushIndex [] k i = [(k, [i])] from rfl]
    rw [lookupIndices_cons_pos _ _ _ (beq_self_eq_true k)]
    rfl
  | cons e rest ih =>
    cases he : e.1 == k with
    | true =>
      rw [show pushIndex (e :: rest) k i = (e.1, e.2 ++ [i]) :: rest by
        simp [pushIndex, he]]
      rw [lookupIndices_cons_pos (e.1, e.2 ++ [i]) rest k he,
        lookupIndices_cons_pos e rest k he]
    | false =>
      rw [show pushIndex (e :: rest) k i = e :: pushIndex rest k i by
        simp [pushIndex, he]]
      rw [lookupIndices_cons_neg _ _ _ he, lookupIndices_cons_neg e rest k he]
      exact ih

/-- Pushing an index for key `k` leaves every other key's list unchanged. -/
lemma lookupIndices_pushIndex_ne :
    ∀ (m : List (String × List Nat)) (k k' : String) (i : Nat), k' ≠ k →
      lookupIndices (pushIndex m k i) k' = lookupIndices m k' := by
  intro m k k' i hne
  have hkk' : (k == k') = false := beq_eq_false_iff_ne.mpr (fun h => hne h.symm)
  induction m with
  | nil =>
    rw [show pushIndex [] k i = [(k, [i])] from rfl]
    rw [lookupIndices_cons_neg _ _ _ hkk']
  | cons e rest ih =>
    cases he : e.1 == k with
    | true =>
      have heq : e.1 = k := eq_of_beq he
      have he' : (e.1 == k') = false := by rw [heq]; exact hkk'
      rw [show pushIndex (e :: rest) k i = (e.1, e.2 ++ [i]) :: rest by
        simp [pushIndex, he]]
      rw [lookupIndices_cons_neg (e.1, e.2 ++ [i]) rest k' he',
        lookupIndices_cons_neg e rest k' he']
    | false =>
      cases he' : e.1 == k' with
      | true =>
        rw [show pushIndex (e :: rest) k i = e :: pushIndex rest k i by
          simp [pushIndex, he]]
        rw [lookupIndices_cons_pos _ _ _ he', lookupIndices_cons_pos e rest k' he']
      | false =>
        rw [show pushIndex (e :: rest) k i = e :: pushIndex rest k i by
          simp [pushIndex, he]]
        rw [lookupIndices_cons_neg _ _ _ he', lookupIndices_cons_neg e rest k' he']
        exact ih

/-- Indexing one record's grant array under index `i` appends `i` to key
`k`'s list once per occurrence of `k` in the array. -/
lemma lookupIndices_addGrants :
    ∀ (ids : List String) (m : List (String × List Nat)) (k : String) (i : Nat),
      lookupIndices (addGrants m ids i) k =
        lookupIndices m k ++ List.replicate (ids.count k) i := by
  intro ids
  induction ids with
  | nil => intro m k i; simp [addGrants]
  | cons id0 rest ih =>
    intro m k i
    rw [show addGrants m (id0 :: rest) i = addGrants (pushIndex m id0 i) rest i
      from rfl, ih]
    by_cases hk : k = id0
    · subst hk
      rw [lookupIndices_pushIndex_self]
      simp [List.count_cons, List.replicate_succ, List.append_assoc]
    · have h1 : (k == id0) = false := beq_eq_false_iff_ne.mpr hk
      have h2 : (id0 == k) = false :=
        beq_eq_false_iff_ne.mpr (fun h => hk h.symm)
      rw [lookupIndices_pushIndex_ne m id0 k i hk]
      simp [List.count_cons, h1, h2]

/-- The indices contributed to key `k`'s grant list by a run of outcomes
numbered from `idx`, reading each outcome's grant array through `sel`. -/
def contribOf (sel : RecordOutcome → List String) (k : String) :
    Nat → List RecordOutcome → List Nat
  | _, [] => []
  | idx, o :: os =>
    List.replicate ((sel o).count k) idx ++ contribOf sel k (idx + 1) os

/-- The `users` grant map accumulated by the fold, read at any key, is the
accumulator's list followed by the outcomes' contributions. -/
lemma foldOutcomes_users :
    ∀ (os : List RecordOutcome) (idx : Nat) (acc : ParseResult) (k : String),
      lookupIndices (foldOutcomes idx acc os).users k =
        lookupIndices acc.users k ++ contribOf (fun o => o.users) k idx os := by
  intro os
  induction os with
  | nil => intro idx acc k; simp [foldOutcomes, contribOf]
  | cons o rest ih =>
    intro idx acc k
    unfold foldOutcomes contribOf
    rw [ih]
    simp [foldOutcome, lookupIndices_addGrants, List.append_assoc]

/-- The `groups` grant map accumulated by the fold, read at any key, is the
accumulator's list followed by the outcomes' contributions. -/
lemma foldOutcomes_groups :
    ∀ (os : List RecordOutcome) (idx : Nat) (acc : ParseResult) (k : String),
      lookupIndices (foldOutcomes idx acc os).groups k =
        lookupIndices acc.groups k ++ contribOf (fun o => o.groups) k idx os := by
  intro os
  induction os with
  | nil => intro idx acc k; simp [foldOutcomes, contribOf]
  | cons o rest ih =>
    intro idx acc k
    unfold foldOutcomes contribOf
    rw [ih]
    simp [foldOutcome, lookupIndices_addGrants, List.append_assoc]

/-- Indices below the numbering base never occur in a contribution list. -/
lemma contribOf_count_lt (sel : RecordOutcome → List String) (k : String) :
    ∀ (os : List RecordOutcome) (idx j : Nat), j < idx →
      (contribOf sel k idx os).count j = 0 := by
  intro os
  induction os with
  | nil => intro idx j _; simp [contribOf]
  | cons o rest ih =>
    intro idx j hj
    unfold contribOf
    rw [List.count_append]
    have h1 : (j == idx) = false := beq_eq_false_iff_ne.mpr (by omega)
    have h2 : (idx == j) = false := beq_eq_false_iff_ne.mpr (by omega)
    simp [List.count_replicate, h1, h2, ih (idx + 1) j (by omega)]

/-- The number of times index `idx + m` occurs in a contribution list is
the number of times `k` occurs in the `m`-th outcome's grant array. -/
lemma contribOf_count_get (sel : RecordOutcome → List String) (k : String) :
    ∀ (os : List RecordOutcome) (idx m : Nat) (hm : m < os.length),
      (contribOf sel k idx os).count (idx + m) =
        (sel (os.get ⟨m, hm⟩)).count k := by
  intro os
  induction os with
  | nil => intro idx m hm; cases hm
  | cons o rest ih =>
    intro idx m hm
    cases m with
    | zero =>
      unfold contribOf
      rw [List.count_append, Nat.add_zero]
      rw [contribOf_count_lt sel k rest (idx + 1) idx (by omega)]
      simp [List.count_replicate]
    | succ m' =>
      unfold contribOf
      rw [List.count_append]
      have h1 : (idx + (m' + 1) == idx) = false :=
        beq_eq_false_iff_ne.mpr (by omega)
      have h2 : (idx == idx + (m' + 1)) = false :=
        beq_eq_false_iff_ne.mpr (by omega)
      have harith : idx + (m' + 1) = (idx + 1) + m' := by omega
      rw [harith, ih (idx + 1) m' (by simpa using hm)]
      simp [List.count_replicate]
      intro hcontra
      omega

/-- C7 (amended): for every batch that completes, where `os` is the list of
per-record outcomes, each record index `i` occurs in the grantee-users list
of an identifier `k` exactly as many times as `k` occurs in record `i`'s
extracted `users` array — in particular exactly once when the record names
`k` exactly once — and analogously for `groups` and the grantee-groups
map. -/
theorem grant_index_counts (gl : GroupLookups) (trs : List Transform)
    (rows : List ImportRecord) (os : List RecordOutcome) (res : ParseResult)
    (hall : processAll gl trs rows = .ok os)
    (hres : parseConnectionData (.array rows) trs gl = .ok res)
    (i : Nat) (hi : i < os.length) (k : String) :
    (lookupIndices res.users k).count i = ((os.get ⟨i, hi⟩).users).count k ∧
    (lookupIndices res.groups k).count i = ((os.get ⟨i, hi⟩).groups).count k := by
  have hres' : res = foldOutcomes 0 {} os := by
    have hloop := parseLoop_eq_foldOutcomes gl trs rows os 0 {} hall
    unfold parseConnectionData at hres
    cases rows with
    | nil => cases hres
    | cons r rest =>
      rw [show performBasicChecks (.array (r :: rest)) = none by
        simp [performBasicChecks]] at hres
      rw [show rowsOf (.array (r :: rest)) = r :: rest from rfl] at hres
      rw [hloop] at hres
      exact (Except.ok.inj hres).symm
  subst hres'
  constructor
  · rw [foldOutcomes_users]
    rw [show lookupIndices (({} : ParseResult)).users k = [] from rfl]
    rw [List.nil_append]
    have := contribOf_count_get (fun o => o.users) k os 0 i hi
    rw [Nat.zero_add] at this
    exact this
  · rw [foldOutcomes_groups]
    rw [show lookupIndices (({} : ParseResult)).groups k = [] from rfl]
    rw [List.nil_append]
    have := contribOf_count_get (fun o => o.groups) k os 0 i hi
    rw [Nat.zero_add] at this
    exact this

/-- The outcomes of the witness batch `exRows` under no adapters. -/
def exOutcomes : List RecordOutcome :=
  [outcomeOf exLookups recBob, outcomeOf exLookups recMissing]

/-- The parse result of the witness batch `exRows` under no adapters. -/
def exResult : ParseResult := foldOutcomes 0 {} exOutcomes

/-- C7 witness: in the two-record witness batch, record 0 (which names
`bob` once in `users`) occurs exactly once in `granteeUsers[bob]`, and
record 1 (which names `grp` once in `groups`) occurs exactly once in
`granteeGroups[grp]`. -/
theorem grant_index_counts_witness :
    ((lookupIndices exResult.users "bob").count 0 =
      ((exOutcomes.get ⟨0, by decide⟩).users).count "bob" ∧
     (lookupIndices exResult.groups "bob").count 0 =
      ((exOutcomes.get ⟨0, by decide⟩).groups).count "bob") ∧
    ((lookupIndices exResult.users "grp").count 1 =
      ((exOutcomes.get ⟨1, by decide⟩).users).count "grp" ∧
     (lookupIndices exResult.groups "grp").count 1 =
      ((exOutcomes.get ⟨1, by decide⟩).groups).count "grp") :=
  ⟨grant_index_counts exLookups [] exRows exOutcomes exResult (by decide)
      (by decide) 0 (by decide) "bob",
   grant_index_counts exLookups [] exRows exOutcomes exResult (by decide)
      (by decide) 1 (by decide) "grp"⟩

/-- A record naming the same user identifier twice. -/
def dupRec : ImportRecord := { users := some ["alice", "alice"] }

/-- C7 counterexample: a one-record batch whose record lists `alice` twice
in `users` produces `granteeUsers[alice] == [0, 0]` — record index 0 occurs
twice, not exactly once, because the source pushes the index once per
occurrence of the identifier. -/
theorem grant_index_counterexample :
    parseConnectionData (.array [dupRec]) [] exLookups =
      .ok { patches := [{ op := "add", path := "/", value := ⟨dupRec⟩ }],
            users := [("alice", [0, 0])],
            groups := [],
            errors := [[]],
            hasErrors := false } ∧
    (lookupIndices [("alice", [0, 0])] "alice").count 0 = 2 := by
  decide

mutual

/-- The number of nodes of a group tree. -/
def nodeCount : GroupNode → Nat
  | .mk _ _ childConnectionGroups => 1 + nodeCountList childConnectionGroups

/-- The number of nodes of a forest of group trees. -/
def nodeCountList : List GroupNode → Nat
  | [] => 0
  | c :: cs => nodeCount c + nodeCountList cs

end

mutual

/-- The tree walk performs exactly one path assignment per node: it visits
every node exactly once. -/
theorem saveLookupsEntries_length (pre : String) (t : GroupNode) :
    (saveLookupsEntries pre t).length = nodeCount t := by
  cases t with
  | mk i n cs =>
    simp [saveLookupsEntries, nodeCount,
      saveLookupsList_length ((pre ++ n) ++ "/") cs, Nat.add_comm]

/-- The forest version of `saveLookupsEntries_length`. -/
theorem saveLookupsList_length (pre : String) (l : List GroupNode) :
    (saveLookupsList pre l).length = nodeCountList l := by
  cases l with
  | nil => simp [saveLookupsList, nodeCountList]
  | cons c cs =>
    simp [saveLookupsList, nodeCountList, saveLookupsEntries_length pre c,
      saveLookupsList_length pre cs]

end

/-- In an association list with pairwise-distinct keys, `find?` on a key
present in the list returns that key's entry. -/
lemma find?_eq_of_keysNodup :
    ∀ (l : List (String × String)) (p id : String),
      (l.map (fun e => e.1)).Nodup → (p, id) ∈ l →
      l.find? (fun e => e.1 == p) = some (p, id) := by
  intro l
  induction l with
  | nil => intro p id _ hmem; cases hmem
  | cons e rest ih =>
    intro p id hnodup hmem
    rw [List.map_cons, List.nodup_cons] at hnodup
    rcases List.mem_cons.mp hmem with heq | hmem'
    · rw [← heq]
      simp [List.find?]
    · have hp : p ∈ rest.map (fun e => e.1) :=
        List.mem_map_of_mem (fun e => e.1) hmem'
      have hne : (e.1 == p) = false :=
        beq_eq_false_iff_ne.mpr (fun h => hnodup.1 (by rw [h]; exact hp))
      simp [List.find?, hne, ih p id hnodup.2 hmem']

/-- In a JS object built from assignments with pairwise-distinct keys,
reading a key that was assigned returns its value. -/
lemma jsGet_eq_of_keysNodup (l : List (String × String)) (p id : String)
    (hnodup : (l.map (fun e => e.1)).Nodup) (hmem : (p, id) ∈ l) :
    jsGet l p = some id := by
  have h1 : (l.reverse.map (fun e => e.1)).Nodup := by
    rw [List.map_reverse]
    exact List.nodup_reverse.mpr hnodup
  have h2 : (p, id) ∈ l.reverse := List.mem_reverse.mpr hmem
  unfold jsGet
  rw [find?_eq_of_keysNodup l.reverse p id h1 h2]
  rfl

/-- C9: for a well-formed tree (all node paths distinct), the index built
by the tree walk round-trips — each entry the walk makes pairs a node's
canonical slash-delimited path (bare root name for the root, parent path
plus `/` plus name for children, exactly how the walk extends its stem)
with that node's identifier; looking any such path up in the built map
yields that identifier, the identifier is in the known-identifier set, and
the walk makes exactly one entry per node (every node is visited exactly
once). -/
theorem group_index_roundtrip (t : GroupNode)
    (h : ((saveLookupsEntries "" t).map (fun e => e.1)).Nodup) :
    (∀ p id, (p, id) ∈ saveLookupsEntries "" t →
      jsGet (buildGroupLookups t).groupLookups p = some id ∧
      jsHasKey (buildGroupLookups t).identifierSet id = true) ∧
    (saveLookupsEntries "" t).length = nodeCount t := by
  constructor
  · intro p id hmem
    constructor
    · show jsGet (saveLookupsEntries "" t) p = some id
      exact jsGet_eq_of_keysNodup _ p id h hmem
    · show jsHasKey ((saveLookupsEntries "" t).map (fun e => e.2)) id = true
      exact List.elem_eq_true_of_mem
        (List.mem_map_of_mem (fun e => e.2) hmem)
  · exact saveLookupsEntries_length "" t

/-- C9 witness: in the two-node example tree, the child's path `ROOT/sub`
looks up to its identifier `g1`, that identifier is known, and the walk
made exactly one entry per node. -/
theorem group_index_roundtrip_witness :
    jsGet (buildGroupLookups exTree).groupLookups "ROOT/sub" = some "g1" ∧
    jsHasKey (buildGroupLookups exTree).identifierSet "g1" = true ∧
    (saveLookupsEntries "" exTree).length = nodeCount exTree := by
  have h := group_index_roundtrip exTree (by decide)
  exact ⟨(h.1 "ROOT/sub" "g1" (by decide)).1,
    (h.1 "ROOT/sub" "g1" (by decide)).2, h.2⟩
